import Mathlib

/-!
Shallow embedding of `src/nodal_knot/NodalKnot.py` (the `NodalKnot`
orchestrator class).

Modelling conventions:
* numpy 3-D arrays are `Arr3 α`: a shape `(d1, d2, d3)` together with the
  flat data list in C (row-major) order, exactly the order numpy stores and
  traverses cells;
* numeric scalars (grid coordinates and the magnitudes `np.abs` produces)
  are modelled by `ℚ` so that every definition is executable; `np.abs` on
  the field sample is the elementwise absolute value;
* the caller-supplied vectorized functions `k_to_zw_func : (kx,ky,kz) ↦ (z,w)`
  and `zw_to_c_func : (z,w) ↦ c` are fields of the state, applied cellwise
  (their vectorized contract);
* Python exceptions are modelled with `Except PyError`; because an exception
  leaves already-performed attribute mutations in place, every method returns
  the pair (result-or-error, final object state);
* `generate_region` is declared in the source as `def generate_region(self):`
  — it accepts no keyword arguments, so a call `self.generate_region(**kwargs)`
  with a nonempty `kwargs` raises `TypeError` before the method body runs.
  Callers' `**kwargs` dictionaries are modelled by a Boolean "kwargs is
  nonempty" flag (their contents never reach a method body).
-/

/-- Python exceptions that the modelled code can raise. -/
inductive PyError where
  | typeError : PyError
  | valueError : PyError
deriving DecidableEq, Repr

/-- Decidable equality for raised-or-returned results. -/
instance exceptDecEq {ε α : Type} [DecidableEq ε] [DecidableEq α] :
    DecidableEq (Except ε α) := fun a b =>
  match a, b with
  | .error x, .error y =>
    if h : x = y then isTrue (by rw [h])
    else isFalse (by intro hc; cases hc; exact h rfl)
  | .error x, .ok y => isFalse (by intro hc; cases hc)
  | .ok x, .error y => isFalse (by intro hc; cases hc)
  | .ok x, .ok y =>
    if h : x = y then isTrue (by rw [h])
    else isFalse (by intro hc; cases hc; exact h rfl)

/-- A numpy 3-D array: shape `(d1, d2, d3)` and the flat cell list in
C (row-major) order. -/
structure Arr3 (α : Type) where
  d1 : ℕ
  d2 : ℕ
  d3 : ℕ
  data : List α
deriving DecidableEq, Repr

namespace Arr3

/-- Shape of the array, as numpy's `.shape` tuple. -/
def shape (a : Arr3 α) : ℕ × ℕ × ℕ := (a.d1, a.d2, a.d3)

/-- Well-formedness: the flat data holds exactly one cell per index triple. -/
def wf (a : Arr3 α) : Prop := a.data.length = a.d1 * a.d2 * a.d3

/-- Cell `a[i, j, k]`, read from the flat C-order data. -/
def get [Inhabited α] (a : Arr3 α) (i j k : ℕ) : α :=
  a.data.getD (i * (a.d2 * a.d3) + j * a.d3 + k) default

/-- Elementwise map, numpy's ufunc broadcasting over one array. -/
def map (f : α → β) (a : Arr3 α) : Arr3 β :=
  ⟨a.d1, a.d2, a.d3, a.data.map f⟩

/-- All index triples of shape `(d1,d2,d3)` in C (row-major) order — the
order in which numpy enumerates cells. -/
def indices (a : Arr3 α) : List (ℕ × ℕ × ℕ) :=
  (List.range a.d1).flatMap fun i =>
    (List.range a.d2).flatMap fun j =>
      (List.range a.d3).map fun k => (i, j, k)

/-- `np.where(p(a))` as an index list: the index triples of the cells
satisfying `p`, in C-order traversal. -/
def whereIdx [Inhabited α] (a : Arr3 α) (p : α → Bool) : List (ℕ × ℕ × ℕ) :=
  a.indices.filter fun ijk => p (a.get ijk.1 ijk.2.1 ijk.2.2)

/-- Number of cells holding `1` — the true-count of a 0/1 volume. -/
def trueCount (a : Arr3 ℕ) : ℕ := a.data.countP (· == 1)

end Arr3

/-- `np.linspace(a, b, n)`: `n` evenly spaced samples over `[a, b]`,
endpoint included; for `n = 1` numpy returns just `[a]`. -/
def linspace (a b : ℚ) (n : ℕ) : List ℚ :=
  if n ≤ 1 then (List.range n).map fun _ => a
  else (List.range n).map fun i : ℕ => a + (i : ℚ) * ((b - a) / ((n : ℚ) - 1))

/-- One output grid of `np.meshgrid(xs, ys, zs, indexing='ij')`: shape
`(n1, n2, n3)` with cell `(i,j,k)` given by `f i j k`. -/
def mesh3 (n1 n2 n3 : ℕ) (f : ℕ → ℕ → ℕ → α) : Arr3 α :=
  ⟨n1, n2, n3,
    (List.range n1).flatMap fun i =>
      (List.range n2).flatMap fun j =>
        (List.range n3).map fun k => f i j k⟩

/-- Elementwise application of a binary function to two same-shape grids,
modelling a vectorized caller function consuming two meshgrid outputs. -/
def mesh3zip (n1 n2 n3 : ℕ) (f g : ℕ → ℕ → ℕ → α) (h : α → α → β) : Arr3 β :=
  mesh3 n1 n2 n3 fun i j k => h (f i j k) (g i j k)

/-- An undirected graph on natural-number node labels, as built by the
skeleton-to-graph conversion: a node set and a set of undirected edges. -/
structure SGraph where
  nodes : Finset ℕ
  edges : Finset (Sym2 ℕ)
deriving DecidableEq

namespace SGraph

/-- Degree of a node: the number of edges incident to it. -/
def degree (G : SGraph) (v : ℕ) : ℕ := (G.edges.filter (fun e => v ∈ e)).card

/-- The degree-1 (leaf) nodes of the graph. -/
def leafNodes (G : SGraph) : Finset ℕ :=
  G.nodes.filter (fun v => G.degree v = 1)

/-- Delete a set of nodes together with every edge incident to one of them. -/
def removeNodes (G : SGraph) (S : Finset ℕ) : SGraph :=
  ⟨G.nodes \ S, G.edges.filter (fun e => ∀ v ∈ S, v ∉ e)⟩

/-- Fuel-indexed leaf pruning: repeatedly delete all current degree-1 nodes
(and their incident edges) until none remains or the fuel runs out. -/
def pruneLeaves : ℕ → SGraph → SGraph
  | 0, G => G
  | fuel + 1, G =>
    if (G.leafNodes).Nonempty then pruneLeaves fuel (G.removeNodes G.leafNodes)
    else G

end SGraph

/-- Modelled from the spec: `remove_leaf_nodes` (imported from the
repository's `util` module, not under `src/`) — "repeatedly remove nodes of
degree 1 (and their incident edge) until no degree-1 node remains";
termination holds because each pass strictly reduces the node count, so
`nodes.card` passes suffice as fuel. -/
def remove_leaf_nodes (G : SGraph) : SGraph :=
  SGraph.pruneLeaves G.nodes.card G

/-- The `NodalKnot` object state: the two caller-supplied field functions,
the grid-range configuration, and the lazily populated cached fields
(all `None` after `__init__`). -/
structure NodalKnot where
  k_to_zw_func : ℚ → ℚ → ℚ → ℚ × ℚ
  zw_to_c_func : ℚ × ℚ → ℚ
  kx_min : ℚ
  kx_max : ℚ
  ky_min : ℚ
  ky_max : ℚ
  kz_min : ℚ
  kz_max : ℚ
  pts_per_dim : ℕ
  val : Option (Arr3 ℚ)
  kx_grid : Option (Arr3 ℚ)
  ky_grid : Option (Arr3 ℚ)
  kz_grid : Option (Arr3 ℚ)
  binarized_val : Option (Arr3 ℕ)
  selected_points : Option (List (ℚ × ℚ × ℚ))
  skeleton : Option (Arr3 ℕ)
  skeleton_points : Option (List (ℚ × ℚ × ℚ))
  graph : Option SGraph

namespace NodalKnot

/-- `NodalKnot.__init__`: store the two functions and the grid parameters,
initialize every cached attribute to `None`. -/
def init (kzw : ℚ → ℚ → ℚ → ℚ × ℚ) (zwc : ℚ × ℚ → ℚ)
    (kxmin kxmax kymin kymax kzmin kzmax : ℚ) (pts : ℕ) : NodalKnot :=
  ⟨kzw, zwc, kxmin, kxmax, kymin, kymax, kzmin, kzmax, pts,
    none, none, none, none, none, none, none, none, none⟩

/-- `NodalKnot.generate_region` (source lines 61–100): linspace each axis,
meshgrid with `indexing='ij'`, evaluate the two field functions cellwise,
store `val` and the three coordinate grids, and return them.  The method
takes no parameters; lines 91–94 reassign the grid-range attributes to
themselves (no-ops, modelled by nothing).  No downstream cached field is
touched. -/
def generate_region (s : NodalKnot) :
    (Arr3 ℚ × Arr3 ℚ × Arr3 ℚ × Arr3 ℚ) × NodalKnot :=
  let n := s.pts_per_dim
  let kx_vals := linspace s.kx_min s.kx_max n
  let ky_vals := linspace s.ky_min s.ky_max n
  let kz_vals := linspace s.kz_min s.kz_max n
  let kxg := mesh3 n n n fun i _ _ => kx_vals.getD i 0
  let kyg := mesh3 n n n fun _ j _ => ky_vals.getD j 0
  let kzg := mesh3 n n n fun _ _ k => kz_vals.getD k 0
  let v := mesh3 n n n fun i j k =>
    s.zw_to_c_func (s.k_to_zw_func (kx_vals.getD i 0) (ky_vals.getD j 0)
      (kz_vals.getD k 0))
  ((v, kxg, kyg, kzg),
    { s with val := some v, kx_grid := some kxg, ky_grid := some kyg,
             kz_grid := some kzg })

/-- The call `self.generate_region(**kwargs)` as written at source lines 128
and 174.  `generate_region` is declared with no parameter besides `self`, so
a nonempty `kwargs` raises `TypeError` at the call, before any attribute is
mutated. -/
def callGenerateRegion (s : NodalKnot) (kwargs : Bool) :
    Except PyError NodalKnot :=
  if kwargs then .error .typeError else .ok (s.generate_region).2

/-- `NodalKnot.binarize_region` (source lines 102–140).  `epsilon = none`
models the Python default `None`; `kwargs` says whether extra keyword
arguments were supplied. -/
def binarize_region (s : NodalKnot) (thickness : ℚ) (epsilon : Option ℚ)
    (kwargs : Bool) : Except PyError (Arr3 ℕ) × NodalKnot :=
  match (if s.val.isNone || kwargs then s.callGenerateRegion kwargs
                else .ok s) with
  | .error e => (.error e, s)
  | .ok s1 =>
    match s1.val with
    | none => (.error .typeError, s1)
    | some v =>
      let norm := v.map (fun x => |x|)
      let b : Arr3 ℕ :=
        match epsilon with
        | some eps =>
          if 0 < eps then norm.map (fun x => if |x - thickness| < eps then 1 else 0)
          else
            let t := if thickness < 10 / (s1.pts_per_dim : ℚ)
                     then 10 / (s1.pts_per_dim : ℚ) else thickness
            norm.map (fun x => if x ≤ t then 1 else 0)
        | none =>
          let t := if thickness < 10 / (s1.pts_per_dim : ℚ)
                   then 10 / (s1.pts_per_dim : ℚ) else thickness
          norm.map (fun x => if x ≤ t then 1 else 0)
      (.ok b, { s1 with binarized_val := some b })

/-- Source lines 189–195 of `knot_surface_points`:
`pts = np.array([self.kx_grid[idx], self.ky_grid[idx], self.kz_grid[idx]]).T`
followed by `if idx is None: self.selected_points = pts`.  At that point the
local `idx` holds the result of `np.where` — a tuple, never `None` — so the
cache assignment can never execute. -/
def surfacePointsTail (s : NodalKnot) (ijs : List (ℕ × ℕ × ℕ)) :
    Except PyError (List (ℚ × ℚ × ℚ)) × NodalKnot :=
  match s.kx_grid, s.ky_grid, s.kz_grid with
  | some gx, some gy, some gz =>
    let pts := ijs.map fun p =>
      (gx.get p.1 p.2.1 p.2.2, gy.get p.1 p.2.1 p.2.2, gz.get p.1 p.2.1 p.2.2)
    let idxAfter : Option (List (ℕ × ℕ × ℕ)) := some ijs
    let s2 := if idxAfter.isNone then { s with selected_points := some pts }
              else s
    (.ok pts, s2)
  | _, _, _ => (.error .typeError, s)

/-- `NodalKnot.knot_surface_points` (source lines 142–195).  A caller-supplied
`idx` is a volume whose nonzero cells select points (`np.where(idx)`). -/
def knot_surface_points (s : NodalKnot) (thickness : ℚ) (epsilon : Option ℚ)
    (idx : Option (Arr3 ℕ)) (kwargs : Bool) :
    Except PyError (List (ℚ × ℚ × ℚ)) × NodalKnot :=
  match (if s.val.isNone || kwargs then s.callGenerateRegion kwargs
         else .ok s) with
  | .error e => (.error e, s)
  | .ok s1 =>
    match s1.val with
    | none => (.error .typeError, s1)
    | some v =>
      match idx with
      | none =>
        let norm := v.map (fun x => |x|)
        let ijs :=
          match epsilon with
          | some eps =>
            if 0 < eps then
              norm.whereIdx (fun x => |x - thickness| < eps)
            else
              let t := if thickness < 10 / (s1.pts_per_dim : ℚ)
                       then 10 / (s1.pts_per_dim : ℚ) else thickness
              norm.whereIdx (fun x => x ≤ t)
          | none =>
            let t := if thickness < 10 / (s1.pts_per_dim : ℚ)
                     then 10 / (s1.pts_per_dim : ℚ) else thickness
            norm.whereIdx (fun x => x ≤ t)
        surfacePointsTail s1 ijs
      | some m =>
        if m.shape ≠ v.shape then (.error .valueError, s1)
        else surfacePointsTail s1 (m.whereIdx (fun x => x ≠ 0))

/-- `NodalKnot.knot_skeleton` (source lines 197–223): binarize, then apply
the external thinning `morph.skeletonize(..., method='lee')`, modelled by the
parameter `skelF`, to the freshly cached `binarized_val`; cache and return
the skeleton. -/
def knot_skeleton (skelF : Arr3 ℕ → Arr3 ℕ) (s : NodalKnot) (thickness : ℚ)
    (epsilon : Option ℚ) (kwargs : Bool) :
    Except PyError (Arr3 ℕ) × NodalKnot :=
  match s.binarize_region thickness epsilon kwargs with
  | (.error e, s1) => (.error e, s1)
  | (.ok _, s1) =>
    match s1.binarized_val with
    | none => (.error .typeError, s1)
    | some b =>
      let sk := skelF b
      (.ok sk, { s1 with skeleton := some sk })

/-- `NodalKnot.knot_skeleton_points` (source lines 225–253): build the
skeleton, then extract its points via `knot_surface_points(idx=self.skeleton)`
(which uses the defaults `thickness=0, epsilon=None`), and cache them. -/
def knot_skeleton_points (skelF : Arr3 ℕ → Arr3 ℕ) (s : NodalKnot)
    (thickness : ℚ) (epsilon : Option ℚ) (kwargs : Bool) :
    Except PyError (List (ℚ × ℚ × ℚ)) × NodalKnot :=
  match knot_skeleton skelF s thickness epsilon kwargs with
  | (.error e, s1) => (.error e, s1)
  | (.ok _, s1) =>
    match knot_surface_points s1 0 none s1.skeleton false with
    | (.error e, s2) => (.error e, s2)
    | (.ok pts, s2) => (.ok pts, { s2 with skeleton_points := some pts })

/-- `NodalKnot.skeleton_graph` (source lines 255–290).  The external
`skeleton2graph` converter is modelled by the parameter `s2g`; the forwarded
`**knot_skeleton_kwargs` are modelled as the optional thickness/epsilon pair
`ks_kwargs` (`none` = no keyword arguments, so `knot_skeleton` runs with its
defaults `thickness=0, epsilon=None` when the skeleton is absent). -/
def skeleton_graph (skelF : Arr3 ℕ → Arr3 ℕ) (s2g : Arr3 ℕ → SGraph)
    (s : NodalKnot) (skeleton_3d : Option (Arr3 ℕ)) (clean : Bool)
    (ks_kwargs : Option (ℚ × Option ℚ)) : Except PyError SGraph × NodalKnot :=
  match skeleton_3d with
  | some sk3 =>
    let G0 := s2g sk3
    let G := if clean then remove_leaf_nodes G0 else G0
    (.ok G, { s with graph := some G })
  | none =>
    if s.skeleton.isNone || ks_kwargs.isSome then
      match knot_skeleton skelF s (ks_kwargs.getD (0, none)).1
          (ks_kwargs.getD (0, none)).2 false with
      | (.error e, s1) => (.error e, s1)
      | (.ok _, s1) =>
        match s1.skeleton with
        | none => (.error .typeError, s1)
        | some sk3 =>
          let G0 := s2g sk3
          let G := if clean then remove_leaf_nodes G0 else G0
          (.ok G, { s1 with graph := some G })
    else
      match s.skeleton with
      | none => (.error .typeError, s)
      | some sk3 =>
        let G0 := s2g sk3
        let G := if clean then remove_leaf_nodes G0 else G0
        (.ok G, { s with graph := some G })

end NodalKnot

/-- The binarized volume `binarize_region` computes from a present field
sample `v` (source lines 130–137), factored out of the method body: shell
mode when `eps` is supplied and positive, otherwise solid mode with the
thickness clamp. -/
def binResult (v : Arr3 ℚ) (t : ℚ) (eps : Option ℚ) (ppd : ℕ) : Arr3 ℕ :=
  let norm := v.map (fun x => |x|)
  match eps with
  | some e =>
    if 0 < e then norm.map (fun x => if |x - t| < e then 1 else 0)
    else norm.map (fun x =>
      if x ≤ (if t < 10 / (ppd : ℚ) then 10 / (ppd : ℚ) else t) then 1 else 0)
  | none => norm.map (fun x =>
      if x ≤ (if t < 10 / (ppd : ℚ) then 10 / (ppd : ℚ) else t) then 1 else 0)

/-- The index list `knot_surface_points` computes with no caller-supplied
mask (source lines 176–183), factored out of the method body: the `np.where`
of the mode condition over the cell magnitudes. -/
def surfIdx (v : Arr3 ℚ) (t : ℚ) (eps : Option ℚ) (ppd : ℕ) : List (ℕ × ℕ × ℕ) :=
  let norm := v.map (fun x => |x|)
  match eps with
  | some e =>
    if 0 < e then norm.whereIdx (fun x => |x - t| < e)
    else norm.whereIdx (fun x =>
      x ≤ (if t < 10 / (ppd : ℚ) then 10 / (ppd : ℚ) else t))
  | none => norm.whereIdx (fun x =>
      x ≤ (if t < 10 / (ppd : ℚ) then 10 / (ppd : ℚ) else t))

/-- Claim-side cell specification for the binarizer (the wording of spec
§4.2): same shape as the field sample; in shell mode a cell is `1` exactly
when the magnitude is within `eps` of `thickness`; in solid mode the
thickness is clamped up to `10 / pts_per_dim` and a cell is `1` exactly when
the magnitude is at most the clamped thickness. -/
def binarizeCellSpec (v : Arr3 ℚ) (t : ℚ) (eps : Option ℚ) (ppd : ℕ)
    (b : Arr3 ℕ) : Prop :=
  b.d1 = v.d1 ∧ b.d2 = v.d2 ∧ b.d3 = v.d3 ∧ b.data.length = v.data.length ∧
  (∀ e, eps = some e → 0 < e → ∀ i, i < v.data.length →
      b.data.getD i 0 = if abs (abs (v.data.getD i 0) - t) < e then 1 else 0) ∧
  ((eps = none ∨ ∃ e, eps = some e ∧ e ≤ 0) → ∀ i, i < v.data.length →
      b.data.getD i 0 =
        if |v.data.getD i 0| ≤ (if t < 10 / (ppd : ℚ) then 10 / (ppd : ℚ) else t)
        then 1 else 0)

/-- Claim-side specification of one linspace axis (spec §8): `n` samples,
first sample the lower bound, last sample the upper bound, consecutive
samples a constant step `(b - a) / (n - 1)` apart, and monotone (in the
direction of the bounds). -/
def axisSpec (a b : ℚ) (n : ℕ) (l : List ℚ) : Prop :=
  l.length = n ∧ l.getD 0 0 = a ∧ l.getD (n - 1) 0 = b ∧
  (∀ i, i + 1 < n → l.getD (i + 1) 0 - l.getD i 0 = (b - a) / ((n : ℚ) - 1)) ∧
  (a ≤ b → ∀ i, i + 1 < n → l.getD i 0 ≤ l.getD (i + 1) 0) ∧
  (b ≤ a → ∀ i, i + 1 < n → l.getD (i + 1) 0 ≤ l.getD i 0)

/-- Claim-side specification of the grids `generate_region` returns
(spec §§4.1, 8): three grids of shape `(n, n, n)` with `'ij'` (matrix)
indexing — cell `(i,j,k)` of the kx grid carries the `i`-th kx axis sample,
of the ky grid the `j`-th ky sample, of the kz grid the `k`-th kz sample —
and each axis linearly spaced between its inclusive bounds and monotone. -/
def gridSpec (s : NodalKnot) : Prop :=
  ((s.generate_region).1.2.1.shape = (s.pts_per_dim, s.pts_per_dim, s.pts_per_dim)) ∧
  ((s.generate_region).1.2.2.1.shape = (s.pts_per_dim, s.pts_per_dim, s.pts_per_dim)) ∧
  ((s.generate_region).1.2.2.2.shape = (s.pts_per_dim, s.pts_per_dim, s.pts_per_dim)) ∧
  (∀ i j k, i < s.pts_per_dim → j < s.pts_per_dim → k < s.pts_per_dim →
    (s.generate_region).1.2.1.get i j k =
      (linspace s.kx_min s.kx_max s.pts_per_dim).getD i 0 ∧
    (s.generate_region).1.2.2.1.get i j k =
      (linspace s.ky_min s.ky_max s.pts_per_dim).getD j 0 ∧
    (s.generate_region).1.2.2.2.get i j k =
      (linspace s.kz_min s.kz_max s.pts_per_dim).getD k 0) ∧
  axisSpec s.kx_min s.kx_max s.pts_per_dim (linspace s.kx_min s.kx_max s.pts_per_dim) ∧
  axisSpec s.ky_min s.ky_max s.pts_per_dim (linspace s.ky_min s.ky_max s.pts_per_dim) ∧
  axisSpec s.kz_min s.kz_max s.pts_per_dim (linspace s.kz_min s.kz_max s.pts_per_dim)

/-- Concrete field function for test instances: `(kx, ky, kz) ↦ (kx + ky, kz)`. -/
def kzwTest (kx ky kz : ℚ) : ℚ × ℚ := (kx + ky, kz)

/-- Concrete field function for test instances: `(z, w) ↦ z`. -/
def zwcTest (p : ℚ × ℚ) : ℚ := p.1

/-- A freshly constructed object: ranges `[0,1] × [0,2] × [0,3]`, two points
per axis, every cached field `None`. -/
def testS0 : NodalKnot :=
  NodalKnot.init kzwTest zwcTest 0 1 0 2 0 3 2

/-- The object after one `generate_region` call on `testS0`. -/
def sGen : NodalKnot := (testS0.generate_region).2

/-- The field sample generated from `testS0`. -/
def vGen : Arr3 ℚ := (testS0.generate_region).1.1

/-- The kx coordinate grid generated from `testS0`. -/
def gxGen : Arr3 ℚ := (testS0.generate_region).1.2.1

/-- The ky coordinate grid generated from `testS0`. -/
def gyGen : Arr3 ℚ := (testS0.generate_region).1.2.2.1

/-- The kz coordinate grid generated from `testS0`. -/
def gzGen : Arr3 ℚ := (testS0.generate_region).1.2.2.2

/-- Solid-mode binarization of `vGen` at thickness 0: the clamp lifts the
threshold to `10 / 2 = 5` and every cell magnitude is at most 3, so all
eight cells are `1`. -/
def bGen : Arr3 ℕ := ⟨2, 2, 2, [1, 1, 1, 1, 1, 1, 1, 1]⟩

/-- A single-point-per-axis instance (`pts_per_dim = 1`). -/
def sN1 : NodalKnot :=
  NodalKnot.init kzwTest zwcTest 0 1 0 2 0 3 1

/-- A stale one-cell binarized volume, of a different shape than anything
`testS0` can generate. -/
def bStale : Arr3 ℕ := ⟨1, 1, 1, [7]⟩

/-- A generated object carrying a stale downstream cache. -/
def sStale : NodalKnot := { sGen with binarized_val := some bStale }

/-- A mask whose shape `(1,1,1)` differs from the generated sample shape
`(2,2,2)`. -/
def mBad : Arr3 ℕ := ⟨1, 1, 1, [1]⟩

/-- A one-voxel skeleton volume for graph-stage tests. -/
def wA : Arr3 ℕ := ⟨1, 1, 1, [1]⟩

/-- A concrete stand-in for the external skeleton-to-graph converter:
always returns the single-edge graph on nodes `0` and `1`. -/
def wG2 : Arr3 ℕ → SGraph := fun _ => ⟨{0, 1}, {Sym2.mk (0, 1)}⟩

/-- A literal field sample of shape `(1,1,2)` for witness instances. -/
def vW : Arr3 ℚ := ⟨1, 1, 2, [0, 3]⟩

/-- A literal kx coordinate grid matching `vW`. -/
def gxW : Arr3 ℚ := ⟨1, 1, 2, [5, 6]⟩

/-- A literal ky coordinate grid matching `vW`. -/
def gyW : Arr3 ℚ := ⟨1, 1, 2, [7, 8]⟩

/-- A literal kz coordinate grid matching `vW`. -/
def gzW : Arr3 ℚ := ⟨1, 1, 2, [9, 10]⟩

/-- A witness object whose field-sample and grid caches hold the literal
arrays directly. -/
def sW : NodalKnot :=
  { testS0 with val := some vW, kx_grid := some gxW, ky_grid := some gyW,
                kz_grid := some gzW }

/-! ### List and array indexing lemmas -/

theorem getD_map_lt (f : α → β) (l : List α) (i : ℕ) (hi : i < l.length)
    (d : β) (d2 : α) : (l.map f).getD i d = f (l.getD i d2) := by
  rw [List.getD_eq_getElem?_getD, List.getD_eq_getElem?_getD, List.getElem?_map,
    List.getElem?_eq_getElem hi]
  rfl

theorem range_getD (n i : ℕ) (hi : i < n) (d : ℕ) :
    (List.range n).getD i d = i := by
  rw [List.getD_eq_getElem?_getD, List.getElem?_range hi]
  rfl

theorem flatMap_length_uniform (g : β → List α) (c : ℕ)
    (hg : ∀ x, (g x).length = c) :
    ∀ l : List β, (l.flatMap g).length = l.length * c := by
  intro l
  induction l with
  | nil => simp
  | cons x xs ih =>
    rw [List.flatMap_cons, List.length_append, hg, ih]
    simp only [List.length_cons]
    ring

theorem flatMap_getD_uniform (g : β → List α) (c : ℕ)
    (hg : ∀ x, (g x).length = c) :
    ∀ (l : List β) (i r : ℕ), i < l.length → r < c → ∀ (d : α) (db : β),
      (l.flatMap g).getD (i * c + r) d = (g (l.getD i db)).getD r d := by
  intro l
  induction l with
  | nil => intro i r hi; simp at hi
  | cons x xs ih =>
    intro i r hi hr d db
    cases i with
    | zero =>
      rw [List.flatMap_cons, show 0 * c + r = r by ring,
        List.getD_append _ _ _ _ (by rw [hg]; exact hr)]
      rfl
    | succ i =>
      have harith : (i + 1) * c + r = c + (i * c + r) := by ring
      rw [List.flatMap_cons, harith,
        List.getD_append_right _ _ _ _ (by rw [hg]; exact Nat.le_add_right c _),
        hg, Nat.add_sub_cancel_left, List.getD_cons_succ]
      exact ih i r (by simpa using Nat.lt_of_succ_lt_succ hi) hr d db

theorem range_flatMap_getD_uniform (g : ℕ → List α) (c n : ℕ)
    (hg : ∀ x, (g x).length = c) (i r : ℕ) (hi : i < n) (hr : r < c) (d : α) :
    ((List.range n).flatMap g).getD (i * c + r) d = (g i).getD r d := by
  rw [flatMap_getD_uniform g c hg (List.range n) i r (by simpa) hr d 0,
    range_getD n i hi]

theorem pair_flat_lt (n2 n3 j k : ℕ) (hj : j < n2) (hk : k < n3) :
    j * n3 + k < n2 * n3 :=
  calc j * n3 + k < j * n3 + n3 := Nat.add_lt_add_left hk _
  _ = (j + 1) * n3 := by ring
  _ ≤ n2 * n3 := Nat.mul_le_mul_right n3 hj

theorem flatIdx_lt (d1 d2 d3 i j k : ℕ) (hi : i < d1) (hj : j < d2)
    (hk : k < d3) : i * (d2 * d3) + j * d3 + k < d1 * d2 * d3 :=
  calc i * (d2 * d3) + j * d3 + k = i * (d2 * d3) + (j * d3 + k) := by ring
  _ < i * (d2 * d3) + d2 * d3 :=
      Nat.add_lt_add_left (pair_flat_lt d2 d3 j k hj hk) _
  _ = (i + 1) * (d2 * d3) := by ring
  _ ≤ d1 * (d2 * d3) := Nat.mul_le_mul_right _ hi
  _ = d1 * d2 * d3 := by ring

theorem mesh3_data_length (n1 n2 n3 : ℕ) (f : ℕ → ℕ → ℕ → α) :
    (mesh3 n1 n2 n3 f).data.length = n1 * n2 * n3 := by
  have hinner : ∀ i : ℕ,
      ((List.range n2).flatMap fun j => (List.range n3).map (f i j)).length
        = n2 * n3 := by
    intro i
    rw [flatMap_length_uniform _ n3 (fun j => by simp) _]
    simp
  show ((List.range n1).flatMap _).length = n1 * n2 * n3
  rw [flatMap_length_uniform _ (n2 * n3) hinner _]
  simp [Nat.mul_assoc]

theorem mesh3_get [Inhabited α] (n1 n2 n3 : ℕ) (f : ℕ → ℕ → ℕ → α)
    (i j k : ℕ) (hi : i < n1) (hj : j < n2) (hk : k < n3) :
    (mesh3 n1 n2 n3 f).get i j k = f i j k := by
  have hinner : ∀ i : ℕ,
      ((List.range n2).flatMap fun j => (List.range n3).map (f i j)).length
        = n2 * n3 := by
    intro i
    rw [flatMap_length_uniform _ n3 (fun j => by simp) _]
    simp
  show ((List.range n1).flatMap _).getD (i * (n2 * n3) + j * n3 + k) default
      = f i j k
  rw [show i * (n2 * n3) + j * n3 + k = i * (n2 * n3) + (j * n3 + k) by ring,
    range_flatMap_getD_uniform _ (n2 * n3) n1 hinner i (j * n3 + k) hi
      (pair_flat_lt n2 n3 j k hj hk) _,
    range_flatMap_getD_uniform _ n3 n2 (fun j => by simp) j k hj hk _,
    getD_map_lt (f i j) _ k (by simpa) _ 0, range_getD n3 k hk]

theorem Arr3.wf_map (f : α → β) (a : Arr3 α) (h : a.wf) : (a.map f).wf := by
  unfold Arr3.wf Arr3.map at *
  simpa using h

theorem Arr3.get_map [Inhabited α] [Inhabited β] (f : α → β) (a : Arr3 α)
    (hwf : a.wf) (i j k : ℕ) (hi : i < a.d1) (hj : j < a.d2) (hk : k < a.d3) :
    (a.map f).get i j k = f (a.get i j k) := by
  show (a.data.map f).getD (i * (a.d2 * a.d3) + j * a.d3 + k) default
      = f (a.data.getD (i * (a.d2 * a.d3) + j * a.d3 + k) default)
  exact getD_map_lt f a.data _
    (by rw [hwf]; exact flatIdx_lt a.d1 a.d2 a.d3 i j k hi hj hk) _ _

theorem Arr3.mem_indices (a : Arr3 α) (p : ℕ × ℕ × ℕ) :
    p ∈ a.indices ↔ p.1 < a.d1 ∧ p.2.1 < a.d2 ∧ p.2.2 < a.d3 := by
  obtain ⟨i, j, k⟩ := p
  simp only [Arr3.indices, List.mem_flatMap, List.mem_map, List.mem_range]
  constructor
  · rintro ⟨a1, h1, a2, h2, a3, h3, he⟩
    cases he
    exact ⟨h1, h2, h3⟩
  · rintro ⟨h1, h2, h3⟩
    exact ⟨i, h1, j, h2, k, h3, rfl⟩

theorem Arr3.whereIdx_congr [Inhabited α] (a : Arr3 α) (p q : α → Bool)
    (h : ∀ x, p x = q x) : a.whereIdx p = a.whereIdx q := by
  unfold Arr3.whereIdx
  exact List.filter_congr fun x _ => h _

theorem Arr3.whereIdx_map [Inhabited α] [Inhabited β] (f : α → β) (a : Arr3 α)
    (hwf : a.wf) (p : β → Bool) :
    (a.map f).whereIdx p = a.whereIdx (fun x => p (f x)) := by
  unfold Arr3.whereIdx
  have hind : (a.map f).indices = a.indices := rfl
  rw [hind]
  apply List.filter_congr
  intro q hq
  rw [Arr3.mem_indices] at hq
  rw [Arr3.get_map f a hwf q.1 q.2.1 q.2.2 hq.1 hq.2.1 hq.2.2]

/-! ### linspace lemmas -/

theorem linspace_length (a b : ℚ) (n : ℕ) : (linspace a b n).length = n := by
  unfold linspace
  split <;> simp

theorem linspace_getD (a b : ℚ) (n : ℕ) (hn : 2 ≤ n) (i : ℕ) (hi : i < n) :
    (linspace a b n).getD i 0 = a + i * ((b - a) / ((n : ℚ) - 1)) := by
  unfold linspace
  rw [if_neg (by omega), getD_map_lt _ _ i (by simpa) 0 0, range_getD n i hi]

theorem linspace_axisSpec (a b : ℚ) (n : ℕ) (hn : 2 ≤ n) :
    axisSpec a b n (linspace a b n) := by
  have hn2 : (2 : ℚ) ≤ (n : ℚ) := by exact_mod_cast hn
  have hn1 : ((n : ℚ) - 1) ≠ 0 := by linarith
  have hn1pos : (0 : ℚ) < (n : ℚ) - 1 := by linarith
  refine ⟨linspace_length a b n, ?_, ?_, ?_, ?_, ?_⟩
  · rw [linspace_getD a b n hn 0 (by omega)]
    push_cast
    ring
  · rw [linspace_getD a b n hn (n - 1) (by omega)]
    have hc : ((n - 1 : ℕ) : ℚ) = (n : ℚ) - 1 := by
      have h1 : (1 : ℕ) ≤ n := by omega
      push_cast [h1]
      ring
    rw [hc]
    field_simp
  · intro i hi
    rw [linspace_getD a b n hn (i + 1) hi, linspace_getD a b n hn i (by omega)]
    push_cast
    ring
  · intro hab i hi
    rw [linspace_getD a b n hn (i + 1) hi, linspace_getD a b n hn i (by omega)]
    have hstep : 0 ≤ (b - a) / ((n : ℚ) - 1) :=
      div_nonneg (by linarith) (le_of_lt hn1pos)
    have hmul : ((i : ℚ) + 1) * ((b - a) / ((n : ℚ) - 1))
        = (i : ℚ) * ((b - a) / ((n : ℚ) - 1)) + (b - a) / ((n : ℚ) - 1) := by
      ring
    push_cast
    nlinarith [hstep]
  · intro hba i hi
    rw [linspace_getD a b n hn (i + 1) hi, linspace_getD a b n hn i (by omega)]
    have hstep : (b - a) / ((n : ℚ) - 1) ≤ 0 :=
      div_nonpos_of_nonpos_of_nonneg (by linarith) (le_of_lt hn1pos)
    push_cast
    nlinarith [hstep]

/-! ### Reduction lemmas for the orchestrator methods -/

theorem binarize_region_eq (s : NodalKnot) (v : Arr3 ℚ) (hv : s.val = some v)
    (t : ℚ) (eps : Option ℚ) :
    s.binarize_region t eps false =
      (.ok (binResult v t eps s.pts_per_dim),
       { s with binarized_val := some (binResult v t eps s.pts_per_dim) }) := by
  cases eps with
  | none => simp [NodalKnot.binarize_region, hv, binResult]
  | some e =>
    by_cases he : 0 < e <;>
      simp [NodalKnot.binarize_region, hv, binResult, he]

theorem knot_surface_points_eq (s : NodalKnot) (v gx gy gz : Arr3 ℚ)
    (hv : s.val = some v) (hgx : s.kx_grid = some gx) (hgy : s.ky_grid = some gy)
    (hgz : s.kz_grid = some gz) (t : ℚ) (eps : Option ℚ) :
    s.knot_surface_points t eps none false =
      (.ok ((surfIdx v t eps s.pts_per_dim).map fun p =>
          (gx.get p.1 p.2.1 p.2.2, gy.get p.1 p.2.1 p.2.2,
            gz.get p.1 p.2.1 p.2.2)), s) := by
  cases eps with
  | none =>
    simp [NodalKnot.knot_surface_points, NodalKnot.surfacePointsTail, hv, hgx,
      hgy, hgz, surfIdx]
  | some e =>
    by_cases he : 0 < e <;>
      simp [NodalKnot.knot_surface_points, NodalKnot.surfacePointsTail, hv,
        hgx, hgy, hgz, surfIdx, he]

theorem surfIdx_eq_whereIdx_binResult (v : Arr3 ℚ) (hwf : v.wf) (t : ℚ)
    (eps : Option ℚ) (ppd : ℕ) :
    surfIdx v t eps ppd = (binResult v t eps ppd).whereIdx (fun x => x = 1) := by
  have hnormwf : (v.map fun x => |x|).wf := Arr3.wf_map _ v hwf
  cases eps with
  | none =>
    simp only [surfIdx, binResult]
    rw [Arr3.whereIdx_map _ _ hnormwf]
    apply Arr3.whereIdx_congr
    intro x
    by_cases hx : x ≤ (if t < 10 / (ppd : ℚ) then 10 / (ppd : ℚ) else t) <;>
      simp [hx]
  | some e =>
    by_cases he : 0 < e
    · simp only [surfIdx, binResult, if_pos he]
      rw [Arr3.whereIdx_map _ _ hnormwf]
      apply Arr3.whereIdx_congr
      intro x
      by_cases hx : |x - t| < e <;> simp [hx]
    · simp only [surfIdx, binResult, if_neg he]
      rw [Arr3.whereIdx_map _ _ hnormwf]
      apply Arr3.whereIdx_congr
      intro x
      by_cases hx : x ≤ (if t < 10 / (ppd : ℚ) then 10 / (ppd : ℚ) else t) <;>
        simp [hx]

theorem binarize_region_ok_cache (s : NodalKnot) (t : ℚ) (eps : Option ℚ)
    (kw : Bool) (b : Arr3 ℕ)
    (hb : (s.binarize_region t eps kw).1 = .ok b) :
    (s.binarize_region t eps kw).2.binarized_val = some b := by
  unfold NodalKnot.binarize_region at hb ⊢
  revert hb
  cases hgen : (if s.val.isNone || kw then s.callGenerateRegion kw
                else .ok s) with
  | error e =>
    intro hb
    simp at hb
  | ok s1 =>
    cases hval : s1.val with
    | none =>
      intro hb
      dsimp only at hb
      rw [hval] at hb
      simp at hb
    | some v =>
      intro hb
      dsimp only at hb ⊢
      rw [hval] at hb ⊢
      simp at hb ⊢
      exact hb

/-! ### Leaf-pruning lemmas -/

theorem pruneLeaves_leafNodes_empty (fuel : ℕ) :
    ∀ G : SGraph, G.nodes.card ≤ fuel →
      (SGraph.pruneLeaves fuel G).leafNodes = ∅ := by
  induction fuel with
  | zero =>
    intro G h
    have hempty : G.nodes = ∅ := Finset.card_eq_zero.mp (Nat.le_zero.mp h)
    show G.leafNodes = ∅
    unfold SGraph.leafNodes
    rw [hempty]
    exact Finset.filter_empty _
  | succ fuel ih =>
    intro G h
    unfold SGraph.pruneLeaves
    split
    · next hne =>
      apply ih
      have hsub : G.leafNodes ⊆ G.nodes := Finset.filter_subset _ _
      have hpos : 0 < (G.leafNodes).card := Finset.card_pos.mpr hne
      have hle : (G.leafNodes).card ≤ G.nodes.card := Finset.card_le_card hsub
      have hcard : (G.removeNodes G.leafNodes).nodes.card
          = G.nodes.card - (G.leafNodes).card := by
        show (G.nodes \ G.leafNodes).card = _
        exact Finset.card_sdiff hsub
      omega
    · next hne =>
      exact Finset.not_nonempty_iff_eq_empty.mp hne

theorem pruneLeaves_of_empty (fuel : ℕ) (G : SGraph) (h : G.leafNodes = ∅) :
    SGraph.pruneLeaves fuel G = G := by
  cases fuel with
  | zero => rfl
  | succ fuel =>
    unfold SGraph.pruneLeaves
    rw [if_neg (by rw [h]; exact Finset.not_nonempty_empty)]

theorem remove_leaf_nodes_leafNodes_empty (G : SGraph) :
    (remove_leaf_nodes G).leafNodes = ∅ :=
  pruneLeaves_leafNodes_empty G.nodes.card G le_rfl

theorem remove_leaf_nodes_fixed (G : SGraph) :
    remove_leaf_nodes (remove_leaf_nodes G) = remove_leaf_nodes G := by
  show SGraph.pruneLeaves _ _ = _
  exact pruneLeaves_of_empty _ _ (remove_leaf_nodes_leafNodes_empty G)

theorem remove_leaf_nodes_no_deg_one (G0 : SGraph) :
    ∀ v ∈ (remove_leaf_nodes G0).nodes, (remove_leaf_nodes G0).degree v ≠ 1 := by
  intro v hv hdeg
  have h1 : v ∈ (remove_leaf_nodes G0).leafNodes := by
    unfold SGraph.leafNodes
    exact Finset.mem_filter.mpr ⟨hv, hdeg⟩
  rw [remove_leaf_nodes_leafNodes_empty] at h1
  exact absurd h1 (Finset.not_mem_empty v)

/-! ### Claim theorems -/

/-- Claim C9: for every skeleton volume, the graph returned by
`skeleton_graph` with `clean=True` contains no node of degree 1, and
applying the leaf-removal cleanup a second time makes no further change
(the cleaned graph is a fixed point of `remove_leaf_nodes`). -/
theorem skeleton_graph_clean_no_degree_one (skelF : Arr3 ℕ → Arr3 ℕ)
    (s2g : Arr3 ℕ → SGraph) (s : NodalKnot) (sk3 : Option (Arr3 ℕ))
    (kskw : Option (ℚ × Option ℚ)) (G : SGraph)
    (h : (NodalKnot.skeleton_graph skelF s2g s sk3 true kskw).1 = .ok G) :
    (∀ v ∈ G.nodes, G.degree v ≠ 1) ∧ remove_leaf_nodes G = G := by
  have hG : ∃ G0, G = remove_leaf_nodes G0 := by
    unfold NodalKnot.skeleton_graph at h
    cases sk3 with
    | some a =>
      simp at h
      exact ⟨s2g a, h.symm⟩
    | none =>
      by_cases hc : (s.skeleton.isNone || kskw.isSome) = true
      · rw [if_pos hc] at h
        revert h
        cases hks : NodalKnot.knot_skeleton skelF s (kskw.getD (0, none)).1
            (kskw.getD (0, none)).2 false with
        | mk r s1 =>
          cases r with
          | error e => intro h; simp at h
          | ok sk =>
            cases hsk : s1.skeleton with
            | none => intro h; simp [hsk] at h
            | some a =>
              intro h
              simp [hsk] at h
              exact ⟨s2g a, h.symm⟩
      · rw [if_neg hc] at h
        revert h
        cases hsk : s.skeleton with
        | none => intro h; simp at h
        | some a =>
          intro h
          simp at h
          exact ⟨s2g a, h.symm⟩
  obtain ⟨G0, rfl⟩ := hG
  exact ⟨remove_leaf_nodes_no_deg_one G0, remove_leaf_nodes_fixed G0⟩

/-- Witness for C9 at a concrete input: a caller-supplied one-voxel skeleton
volume, the converter returning a single-edge graph, `clean = true`. -/
theorem skeleton_graph_clean_no_degree_one_witness :
    (NodalKnot.skeleton_graph id wG2 testS0 (some wA) true none).1 =
        .ok (remove_leaf_nodes (wG2 wA)) ∧
      ((∀ v ∈ (remove_leaf_nodes (wG2 wA)).nodes,
          (remove_leaf_nodes (wG2 wA)).degree v ≠ 1) ∧
        remove_leaf_nodes (remove_leaf_nodes (wG2 wA)) = remove_leaf_nodes (wG2 wA)) :=
  ⟨rfl, skeleton_graph_clean_no_degree_one id wG2 testS0 (some wA) none
    (remove_leaf_nodes (wG2 wA)) rfl⟩

/-- Claim C10: `knot_skeleton` always recomputes the binarization with the
passed thickness and epsilon, overwriting the cached `binarized_val`, and the
returned skeleton is derived from that fresh binarization; likewise
`skeleton_graph` when no `skeleton_3d` is supplied and no skeleton is cached. -/
theorem knot_skeleton_recomputes_binarization (skelF : Arr3 ℕ → Arr3 ℕ)
    (s : NodalKnot) (t : ℚ) (eps : Option ℚ) (b : Arr3 ℕ)
    (hb : (s.binarize_region t eps false).1 = .ok b) :
    ((NodalKnot.knot_skeleton skelF s t eps false).2.binarized_val = some b) ∧
    ((NodalKnot.knot_skeleton skelF s t eps false).1 = .ok (skelF b)) ∧
    ((NodalKnot.knot_skeleton skelF s t eps false).2.skeleton = some (skelF b)) ∧
    (∀ s2g : Arr3 ℕ → SGraph, ∀ clean : Bool, s.skeleton = none →
      (NodalKnot.skeleton_graph skelF s2g s none clean (some (t, eps))).2.binarized_val
          = some b ∧
      (NodalKnot.skeleton_graph skelF s2g s none clean (some (t, eps))).2.skeleton
          = some (skelF b)) := by
  have hpair : s.binarize_region t eps false
      = (.ok b, (s.binarize_region t eps false).2) := by
    calc s.binarize_region t eps false
        = ((s.binarize_region t eps false).1, (s.binarize_region t eps false).2) := rfl
    _ = (.ok b, (s.binarize_region t eps false).2) := by rw [hb]
  have hcache := binarize_region_ok_cache s t eps false b hb
  have hks : NodalKnot.knot_skeleton skelF s t eps false
      = (.ok (skelF b),
         { (s.binarize_region t eps false).2 with skeleton := some (skelF b) }) := by
    unfold NodalKnot.knot_skeleton
    rw [hpair]
    dsimp only
    rw [hcache]
  refine ⟨by rw [hks]; exact hcache, by rw [hks], by rw [hks], ?_⟩
  intro s2g clean hskel
  have hgraph : (NodalKnot.skeleton_graph skelF s2g s none clean (some (t, eps))).2
      = { { (s.binarize_region t eps false).2 with skeleton := some (skelF b) } with
          graph := some (if clean then remove_leaf_nodes (s2g (skelF b))
                         else s2g (skelF b)) } := by
    unfold NodalKnot.skeleton_graph
    rw [if_pos (by simp)]
    simp only [Option.getD_some]
    rw [hks]
  rw [hgraph]
  exact ⟨hcache, rfl⟩

/-- Claim C3 (amended): `generate_region` overwrites the cached field sample
and coordinate grids with the freshly computed values, but does NOT
invalidate the downstream cached stage outputs — `binarized_val`,
`selected_points`, `skeleton`, `skeleton_points` and `graph` all keep their
previous (possibly stale) values. -/
theorem generate_region_overwrites_sample_keeps_downstream (s : NodalKnot) :
    (s.generate_region).2.val = some (s.generate_region).1.1 ∧
    (s.generate_region).2.kx_grid = some (s.generate_region).1.2.1 ∧
    (s.generate_region).2.ky_grid = some (s.generate_region).1.2.2.1 ∧
    (s.generate_region).2.kz_grid = some (s.generate_region).1.2.2.2 ∧
    (s.generate_region).2.binarized_val = s.binarized_val ∧
    (s.generate_region).2.selected_points = s.selected_points ∧
    (s.generate_region).2.skeleton = s.skeleton ∧
    (s.generate_region).2.skeleton_points = s.skeleton_points ∧
    (s.generate_region).2.graph = s.graph :=
  ⟨rfl, rfl, rfl, rfl, rfl, rfl, rfl, rfl, rfl⟩

/-- Counterexample to claim C3 as stated: on an object whose `binarized_val`
cache holds a stale volume, `generate_region` leaves that stale volume in
place — it cannot even be a binarization of the new field sample, since its
shape differs. -/
theorem generate_region_stale_cache_counterexample :
    (sStale.generate_region).2.binarized_val = some bStale ∧
    bStale.shape ≠ ((sStale.generate_region).1.1).shape := by
  exact ⟨rfl, by decide⟩

/-- Claim C2: the code raises `TypeError` when regeneration keyword
arguments are supplied to a downstream call, because `generate_region`
accepts no keyword arguments; the object is left unmutated by the failed
`binarize_region` call. -/
theorem binarize_region_kwargs_type_error :
    (testS0.binarize_region 0 none true).1 = .error .typeError ∧
    (testS0.binarize_region 0 none true).2 = testS0 ∧
    (testS0.knot_surface_points 0 none none true).1 = .error .typeError ∧
    (NodalKnot.knot_skeleton id testS0 0 none true).1 = .error .typeError :=
  ⟨rfl, rfl, rfl, rfl⟩

/-- Claim C4: `knot_surface_points` with a mask derived from the threshold
condition (no `idx` supplied) returns a nonempty point set but never caches
it — `selected_points` stays `None` and the state is unchanged, because the
assignment is guarded by `if idx is None` after `idx` was rebound to the
`np.where` result. -/
theorem knot_surface_points_cache_dead :
    (sW.knot_surface_points 0 none none false).1 =
      .ok ((surfIdx vW 0 none sW.pts_per_dim).map fun p =>
        (gxW.get p.1 p.2.1 p.2.2, gyW.get p.1 p.2.1 p.2.2,
          gzW.get p.1 p.2.1 p.2.2)) ∧
    (sW.knot_surface_points 0 none none false).2.selected_points = none ∧
    some ((surfIdx vW 0 none sW.pts_per_dim).map fun p =>
        (gxW.get p.1 p.2.1 p.2.2, gyW.get p.1 p.2.1 p.2.2,
          gzW.get p.1 p.2.1 p.2.2)) ≠ none := by
  have h := knot_surface_points_eq sW vW gxW gyW gzW rfl rfl rfl rfl 0 none
  exact ⟨by rw [h], by rw [h]; rfl, by simp⟩

/-- Claim C6 (amended): with the field sample already generated and no
regeneration keywords, a caller-supplied mask of mismatching shape makes
`knot_surface_points` raise `ValueError` immediately, with the object state
exactly unchanged. -/
theorem knot_surface_points_shape_mismatch (s : NodalKnot) (v : Arr3 ℚ)
    (m : Arr3 ℕ) (hv : s.val = some v) (hm : m.shape ≠ v.shape) (t : ℚ)
    (eps : Option ℚ) :
    s.knot_surface_points t eps (some m) false = (.error .valueError, s) := by
  simp [NodalKnot.knot_surface_points, hv, hm]

/-- Witness for C6 (amended) at a concrete input. -/
theorem knot_surface_points_shape_mismatch_witness :
    sGen.val = some vGen ∧ mBad.shape ≠ vGen.shape ∧
    sGen.knot_surface_points 0 none (some mBad) false = (.error .valueError, sGen) :=
  ⟨rfl, by decide, knot_surface_points_shape_mismatch sGen vGen mBad rfl
    (by decide) 0 none⟩

/-- Counterexample to claim C6 as stated: on a fresh object (no field sample
yet), the same mismatched mask still raises `ValueError`, but only after the
lazy `generate_region` call has already mutated the cached sample and grids —
the failing call does mutate cached fields. -/
theorem knot_surface_points_mismatch_mutates :
    (testS0.knot_surface_points 0 none (some mBad) false).1 = .error .valueError ∧
    testS0.val = none ∧
    (testS0.knot_surface_points 0 none (some mBad) false).2.val ≠ none :=
  ⟨rfl, rfl, by decide⟩

/-- The binarizer output satisfies the claim-side cell specification. -/
theorem binResult_cellSpec (v : Arr3 ℚ) (t : ℚ) (eps : Option ℚ) (ppd : ℕ) :
    binarizeCellSpec v t eps ppd (binResult v t eps ppd) := by
  have hcell : ∀ (g : ℚ → ℕ) (i : ℕ), i < v.data.length →
      ((v.map fun x => |x|).map g).data.getD i 0 = g |v.data.getD i 0| := by
    intro g i hi
    show ((v.data.map fun x => |x|).map g).getD i 0 = _
    rw [getD_map_lt g _ i (by simpa using hi) 0 0, getD_map_lt _ _ i hi 0 0]
  cases eps with
  | none =>
    refine ⟨rfl, rfl, rfl, by simp [binResult, Arr3.map], ?_, ?_⟩
    · intro e he
      exact Option.noConfusion he
    · intro _ i hi
      simp only [binResult]
      rw [hcell _ i hi]
  | some e =>
    by_cases hpos : 0 < e
    · simp only [binarizeCellSpec, binResult, if_pos hpos]
      refine ⟨rfl, rfl, rfl, by simp [Arr3.map], ?_, ?_⟩
      · intro e2 he2 hpos2 i hi
        injection he2 with h3
        subst h3
        rw [hcell _ i hi]
      · rintro (h | ⟨e2, he2, hle⟩)
        · exact Option.noConfusion h
        · injection he2 with h3
          subst h3
          exact absurd hle (not_le.mpr hpos)
    · simp only [binarizeCellSpec, binResult, if_neg hpos]
      refine ⟨rfl, rfl, rfl, by simp [Arr3.map], ?_, ?_⟩
      · intro e2 he2 hpos2 i hi
        injection he2 with h3
        subst h3
        exact absurd hpos2 hpos
      · intro _ i hi
        rw [hcell _ i hi]

/-- Claim C1: for every field sample, `binarize_region` returns a volume of
the same shape whose cell is 1 exactly when the selected mode's condition
holds — shell when `epsilon` is supplied and positive, otherwise solid with
the thickness clamped up to `10 / pts_per_dim`. -/
theorem binarize_region_modes (s : NodalKnot) (v : Arr3 ℚ) (hv : s.val = some v)
    (t : ℚ) (eps : Option ℚ) :
    ∃ b : Arr3 ℕ, (s.binarize_region t eps false).1 = .ok b ∧
      binarizeCellSpec v t eps s.pts_per_dim b :=
  ⟨binResult v t eps s.pts_per_dim,
    by rw [binarize_region_eq s v hv t eps],
    binResult_cellSpec v t eps s.pts_per_dim⟩

/-- Witness for C1 at a concrete input. -/
theorem binarize_region_modes_witness :
    sW.val = some vW ∧
    ∃ b : Arr3 ℕ, (sW.binarize_region 0 none false).1 = .ok b ∧
      binarizeCellSpec vW 0 none sW.pts_per_dim b :=
  ⟨rfl, binarize_region_modes sW vW rfl 0 none⟩

/-- Claim C5: with a fixed field sample, `knot_surface_points` without a
caller mask returns exactly the coordinate triples at the positions where
`binarize_region` (same thickness, same epsilon) outputs 1 — same index set,
in the same C-order traversal — and the call leaves the object state,
including the cached `binarized_val`, unchanged. -/
theorem knot_surface_points_matches_binarize (s : NodalKnot)
    (v gx gy gz : Arr3 ℚ) (hv : s.val = some v) (hwf : v.wf)
    (hgx : s.kx_grid = some gx) (hgy : s.ky_grid = some gy)
    (hgz : s.kz_grid = some gz) (t : ℚ) (eps : Option ℚ) (b : Arr3 ℕ)
    (hb : (s.binarize_region t eps false).1 = .ok b) :
    (s.knot_surface_points t eps none false).1 =
      .ok ((b.whereIdx (fun x => x = 1)).map fun p =>
        (gx.get p.1 p.2.1 p.2.2, gy.get p.1 p.2.1 p.2.2,
          gz.get p.1 p.2.1 p.2.2)) ∧
    (s.knot_surface_points t eps none false).2 = s := by
  rw [binarize_region_eq s v hv t eps] at hb
  have hbv : b = binResult v t eps s.pts_per_dim := by
    symm
    simpa using hb
  subst hbv
  rw [knot_surface_points_eq s v gx gy gz hv hgx hgy hgz t eps]
  refine ⟨?_, rfl⟩
  show Except.ok _ = Except.ok _
  rw [surfIdx_eq_whereIdx_binResult v hwf t eps s.pts_per_dim]

/-- Witness for C5 at a concrete input. -/
theorem knot_surface_points_matches_binarize_witness :
    sW.val = some vW ∧ vW.wf ∧ sW.kx_grid = some gxW ∧ sW.ky_grid = some gyW ∧
    sW.kz_grid = some gzW ∧
    (sW.binarize_region 0 none false).1 = .ok (binResult vW 0 none sW.pts_per_dim) ∧
    ((sW.knot_surface_points 0 none none false).1 =
      .ok (((binResult vW 0 none sW.pts_per_dim).whereIdx (fun x => x = 1)).map
        fun p => (gxW.get p.1 p.2.1 p.2.2, gyW.get p.1 p.2.1 p.2.2,
          gzW.get p.1 p.2.1 p.2.2)) ∧
     (sW.knot_surface_points 0 none none false).2 = sW) :=
  ⟨rfl, rfl, rfl, rfl, rfl, by rw [binarize_region_eq sW vW rfl 0 none],
   knot_surface_points_matches_binarize sW vW gxW gyW gzW rfl rfl rfl rfl rfl
     0 none (binResult vW 0 none sW.pts_per_dim)
     (by rw [binarize_region_eq sW vW rfl 0 none])⟩

/-- Claim C7: for a fixed field sample, solid-mode binarization true-count
is monotone in the thickness, including across the clamping threshold. -/
theorem binarize_region_solid_monotone (s : NodalKnot) (v : Arr3 ℚ)
    (hv : s.val = some v) (eps : Option ℚ)
    (heps : eps = none ∨ ∃ e, eps = some e ∧ e ≤ 0)
    (t1 t2 : ℚ) (h12 : t1 ≤ t2) (b1 b2 : Arr3 ℕ)
    (h1 : (s.binarize_region t1 eps false).1 = .ok b1)
    (h2 : (s.binarize_region t2 eps false).1 = .ok b2) :
    b1.trueCount ≤ b2.trueCount := by
  rw [binarize_region_eq s v hv t1 eps] at h1
  rw [binarize_region_eq s v hv t2 eps] at h2
  have e1 : binResult v t1 eps s.pts_per_dim = b1 := by simpa using h1
  have e2 : binResult v t2 eps s.pts_per_dim = b2 := by simpa using h2
  subst e1
  subst e2
  have hT : (if t1 < 10 / (s.pts_per_dim : ℚ) then 10 / (s.pts_per_dim : ℚ) else t1)
      ≤ (if t2 < 10 / (s.pts_per_dim : ℚ) then 10 / (s.pts_per_dim : ℚ) else t2) := by
    split_ifs <;> linarith
  have hmain : ∀ T1 T2 : ℚ, T1 ≤ T2 →
      ((v.map fun x => |x|).map fun x : ℚ =>
        if x ≤ T1 then 1 else 0).trueCount ≤
      ((v.map fun x => |x|).map fun x : ℚ =>
        if x ≤ T2 then 1 else 0).trueCount := by
    intro T1 T2 hT12
    show (((v.data.map fun x => |x|).map _).countP _) ≤
      (((v.data.map fun x => |x|).map _).countP _)
    rw [List.countP_map, List.countP_map, List.countP_map, List.countP_map]
    apply List.countP_mono_left
    intro x hx h
    simp only [Function.comp_apply] at h ⊢
    by_cases hle : |x| ≤ T1
    · have hle2 : |x| ≤ T2 := le_trans hle hT12
      simp [hle2]
    · simp [hle] at h
  rcases heps with rfl | ⟨e, rfl, he⟩
  · simp only [binResult]
    exact hmain _ _ hT
  · simp only [binResult, if_neg (not_lt.mpr he)]
    exact hmain _ _ hT

/-- Witness for C7 at a concrete input. -/
theorem binarize_region_solid_monotone_witness :
    sW.val = some vW ∧
    ((none : Option ℚ) = none ∨ ∃ e, (none : Option ℚ) = some e ∧ e ≤ 0) ∧
    ((0 : ℚ) ≤ 1) ∧
    (sW.binarize_region 0 none false).1 = .ok (binResult vW 0 none sW.pts_per_dim) ∧
    (sW.binarize_region 1 none false).1 = .ok (binResult vW 1 none sW.pts_per_dim) ∧
    (binResult vW 0 none sW.pts_per_dim).trueCount ≤
      (binResult vW 1 none sW.pts_per_dim).trueCount :=
  ⟨rfl, Or.inl rfl, by norm_num,
   by rw [binarize_region_eq sW vW rfl 0 none],
   by rw [binarize_region_eq sW vW rfl 1 none],
   binarize_region_solid_monotone sW vW rfl none (Or.inl rfl) 0 1 (by norm_num)
     (binResult vW 0 none sW.pts_per_dim) (binResult vW 1 none sW.pts_per_dim)
     (by rw [binarize_region_eq sW vW rfl 0 none])
     (by rw [binarize_region_eq sW vW rfl 1 none])⟩

/-- Claim C8 (amended to point counts of at least 2): `generate_region`
produces three coordinate grids of identical shape `(n, n, n)` with matrix
`'ij'` indexing — cell `(i,j,k)` of the kx grid is the `i`-th kx axis value,
and analogously for ky (index `j`) and kz (index `k`) — with each axis
linearly spaced between its inclusive bounds and monotone. -/
theorem generate_region_grids (s : NodalKnot) (hn : 2 ≤ s.pts_per_dim) :
    gridSpec s := by
  refine ⟨rfl, rfl, rfl, ?_, linspace_axisSpec _ _ _ hn,
    linspace_axisSpec _ _ _ hn, linspace_axisSpec _ _ _ hn⟩
  intro i j k hi hj hk
  refine ⟨?_, ?_, ?_⟩
  · exact mesh3_get s.pts_per_dim s.pts_per_dim s.pts_per_dim
      (fun i _ _ => (linspace s.kx_min s.kx_max s.pts_per_dim).getD i 0)
      i j k hi hj hk
  · exact mesh3_get s.pts_per_dim s.pts_per_dim s.pts_per_dim
      (fun _ j _ => (linspace s.ky_min s.ky_max s.pts_per_dim).getD j 0)
      i j k hi hj hk
  · exact mesh3_get s.pts_per_dim s.pts_per_dim s.pts_per_dim
      (fun _ _ k => (linspace s.kz_min s.kz_max s.pts_per_dim).getD k 0)
      i j k hi hj hk

/-- Witness for C8 (amended) at a concrete input. -/
theorem generate_region_grids_witness :
    2 ≤ testS0.pts_per_dim ∧ gridSpec testS0 :=
  ⟨by decide, generate_region_grids testS0 (by decide)⟩

/-- Counterexample to claim C8 as stated for every point count: with one
point per axis, the kx axis range is `[0, 1]` but the produced kx grid holds
only the lower bound — the upper bound is not attained, so the axis is not
linearly spaced between inclusive bounds. -/
theorem generate_region_single_point_misses_bound :
    sN1.kx_min = 0 ∧ sN1.kx_max = 1 ∧
    (sN1.generate_region).1.2.1.data = [(0 : ℚ)] ∧
    ¬ (1 : ℚ) ∈ (sN1.generate_region).1.2.1.data := by
  have hd : (sN1.generate_region).1.2.1.data = [(0 : ℚ)] := rfl
  refine ⟨rfl, rfl, hd, ?_⟩
  rw [hd]
  intro hmem
  rcases List.mem_singleton.mp hmem with h
  exact absurd h (by norm_num)

/-- Witness for C10 at a concrete input: `skelF = id`, solid mode at the
default thickness on the literal witness object. -/
theorem knot_skeleton_recomputes_binarization_witness :
    (sW.binarize_region 0 none false).1 = .ok (binResult vW 0 none sW.pts_per_dim) ∧
    (((NodalKnot.knot_skeleton id sW 0 none false).2.binarized_val =
        some (binResult vW 0 none sW.pts_per_dim)) ∧
      ((NodalKnot.knot_skeleton id sW 0 none false).1 =
        .ok (id (binResult vW 0 none sW.pts_per_dim))) ∧
      ((NodalKnot.knot_skeleton id sW 0 none false).2.skeleton =
        some (id (binResult vW 0 none sW.pts_per_dim))) ∧
      (∀ s2g : Arr3 ℕ → SGraph, ∀ clean : Bool, sW.skeleton = none →
        (NodalKnot.skeleton_graph id s2g sW none clean (some (0, none))).2.binarized_val
            = some (binResult vW 0 none sW.pts_per_dim) ∧
        (NodalKnot.skeleton_graph id s2g sW none clean (some (0, none))).2.skeleton
            = some (id (binResult vW 0 none sW.pts_per_dim)))) :=
  ⟨by rw [binarize_region_eq sW vW rfl 0 none],
   knot_skeleton_recomputes_binarization id sW 0 none
     (binResult vW 0 none sW.pts_per_dim)
     (by rw [binarize_region_eq sW vW rfl 0 none])⟩
